import Mathlib

/-!
# Verification of the Shopify discount tool's calculation engine and batch updater

Shallow embedding of `app/discount_strategies.py` (the pure price math and the
preview composition) and of the batch-orchestration core of `app/main.py`
(`update_prices`, `get_filtered_products`, `process_discount_update`,
`update_single_variant_discount`).

Modelling conventions:
* Python `float` prices, values and percentages are modelled as `ℚ`.
* Python truthiness on `Optional[float]` (`if current_compare_at_price:`) is
  `isTruthy`: `None` and `0.0` are falsy, every other number is truthy.
* `raise ValueError` in the calculator is modelled by `Except String`.
* Remote calls (`shopify_client.update_variant_price`) and list fetches are
  external collaborators; they are modelled by oracles passed as arguments.
  The history database write (`db_manager.log_price_change`) is modelled as
  always succeeding.
* Python `round(x, 2)` is round-half-to-even at two decimals (`round2`);
  `int(x)` on the non-negative progress ratio is `Int.floor`.
-/

namespace ShopifyTool

/-- The four strategies of `DiscountStrategy` in `discount_strategies.py`. -/
inductive DiscountStrategy where
  | increaseCompareOnly
  | decreasePriceOnly
  | bothDirections
  | setDiscountPercentage
deriving DecidableEq

/-- The Python enum's string value for each strategy. -/
def DiscountStrategy.value : DiscountStrategy → String
  | .increaseCompareOnly => "increase_compare_only"
  | .decreasePriceOnly => "decrease_price_only"
  | .bothDirections => "both_directions"
  | .setDiscountPercentage => "set_discount_percentage"

/-- `DiscountStrategy(strategy)` string parsing; `none` models the
`ValueError` for an unknown strategy string. -/
def strategyFromString (s : String) : Option DiscountStrategy :=
  if s = "increase_compare_only" then some .increaseCompareOnly
  else if s = "decrease_price_only" then some .decreasePriceOnly
  else if s = "both_directions" then some .bothDirections
  else if s = "set_discount_percentage" then some .setDiscountPercentage
  else none

/-- Python truthiness of an `Optional[float]`: `None` and `0.0` are falsy. -/
def isTruthy : Option ℚ → Bool
  | none => false
  | some q => q != 0

/-- `DiscountCalculator.calculate_new_prices` from `discount_strategies.py`.
Each branch mirrors the Python control flow, including the truthiness tests
`if current_compare_at_price:` and the `ValueError` of the
`SET_DISCOUNT_PERCENTAGE` branch when no target percentage is given.
(The rational division is total, so the Python `ZeroDivisionError` at
`target = 100` is out of this model's scope; no claim touches it.) -/
def calculate_new_prices (current_price : ℚ) (current_compare_at_price : Option ℚ)
    (strategy : DiscountStrategy) (value : ℚ)
    (target_discount_percentage : Option ℚ) : Except String (ℚ × Option ℚ) :=
  match strategy with
  | .increaseCompareOnly =>
      let new_price := current_price
      let new_compare_at_price :=
        if isTruthy current_compare_at_price then
          current_compare_at_price.getD 0 * (1 + value / 100)
        else
          current_price * (1 + value / 100)
      .ok (new_price, some new_compare_at_price)
  | .decreasePriceOnly =>
      let new_price := current_price * (1 - |value| / 100)
      let new_compare_at_price :=
        if isTruthy current_compare_at_price then
          current_compare_at_price.getD 0
        else
          current_price
      .ok (new_price, some new_compare_at_price)
  | .bothDirections =>
      let new_price := current_price * (1 + value / 100)
      let new_compare_at_price :=
        if isTruthy current_compare_at_price then
          current_compare_at_price.getD 0 * (1 + (value * (3 / 2)) / 100)
        else
          current_price * (1 + |value * 2| / 100)
      .ok (new_price, some new_compare_at_price)
  | .setDiscountPercentage =>
      match target_discount_percentage with
      | none => .error "target_discount_percentage is required for this strategy"
      | some target =>
          .ok (current_price, some (current_price / (1 - target / 100)))

/-- `DiscountCalculator.calculate_discount_percentage`. -/
def calculate_discount_percentage (price compare_at_price : ℚ) : ℚ :=
  if compare_at_price ≤ price then 0
  else ((compare_at_price - price) / compare_at_price) * 100

/-- Round-half-to-even to an integer, as Python's `round` on exact values. -/
def roundHalfEven (q : ℚ) : ℤ :=
  let f := ⌊q⌋
  let frac := q - f
  if frac < 1 / 2 then f
  else if 1 / 2 < frac then f + 1
  else if f % 2 = 0 then f else f + 1

/-- Python `round(x, 2)`. -/
def round2 (q : ℚ) : ℚ := (roundHalfEven (q * 100) : ℚ) / 100

/-- The guarded discount computation used twice inside
`preview_discount_change`: `if cap and cap > price:` compute the percentage,
else `0.0`. Truthiness means a compare price of `0` also yields `0`. -/
def discount_if_truthy (price : ℚ) (compare : Option ℚ) : ℚ :=
  match compare with
  | none => 0
  | some c => if c ≠ 0 ∧ price < c then calculate_discount_percentage price c else 0

/-- `DiscountCalculator.get_strategy_description`. -/
def get_strategy_description : DiscountStrategy → String
  | .increaseCompareOnly => "Збільшення тільки порівняльної ціни (збільшити знижку)"
  | .decreasePriceOnly => "Зменшення тільки основної ціни (збільшити знижку + зменшити ціну)"
  | .bothDirections => "Зміна обох цін (максимальний контроль знижки)"
  | .setDiscountPercentage => "Встановлення конкретного відсотка знижки"

/-- The dict returned by `DiscountCalculator.preview_discount_change`. -/
structure PreviewResult where
  current_price : ℚ
  current_compare_at_price : Option ℚ
  current_discount_percentage : ℚ
  new_price : ℚ
  new_compare_at_price : Option ℚ
  new_discount_percentage : ℚ
  discount_change : ℚ
  strategy_description : String
deriving DecidableEq

/-- `DiscountCalculator.preview_discount_change`. Note which fields the
source rounds: the current price and current compare price are echoed back
unrounded; the computed prices and percentages go through `round(_, 2)`. -/
def preview_discount_change (current_price : ℚ) (current_compare_at_price : Option ℚ)
    (strategy : DiscountStrategy) (value : ℚ)
    (target_discount_percentage : Option ℚ) : Except String PreviewResult :=
  let current_discount := discount_if_truthy current_price current_compare_at_price
  match calculate_new_prices current_price current_compare_at_price strategy value
      target_discount_percentage with
  | .error e => .error e
  | .ok (new_price, new_compare_at_price) =>
      let new_discount := discount_if_truthy new_price new_compare_at_price
      .ok {
        current_price := current_price
        current_compare_at_price := current_compare_at_price
        current_discount_percentage := round2 current_discount
        new_price := round2 new_price
        new_compare_at_price :=
          match new_compare_at_price with
          | none => none
          | some c => if c ≠ 0 then some (round2 c) else none
        new_discount_percentage := round2 new_discount
        discount_change := round2 (new_discount - current_discount)
        strategy_description := get_strategy_description strategy }

/-! ## Batch-update orchestration (`app/main.py`) -/

/-- A priced sub-unit of a product (`variant` dict): id, optional title,
price and optional compare price. -/
structure Variant where
  id : ℕ
  title : Option String
  price : ℚ
  compare_at_price : Option ℚ
deriving DecidableEq

/-- A catalog item (`product` dict) with its priced sub-units. -/
structure Product where
  id : ℕ
  title : String
  variants : List Variant
deriving DecidableEq

/-- Outcome of one external call (remote update): success or an exception
carrying a message. -/
inductive CallResult where
  | ok
  | err (msg : String)
deriving DecidableEq

/-- The compare-price argument passed to
`shopify_client.update_variant_price`; source line
`f"{new_compare_at_price:.2f}" if new_compare_at_price else None`: the field
is omitted (`none`) exactly when the computed compare price is `None` or `0`.
(The `:.2f` string formatting itself is not modelled; the payload carries the
rational value.) -/
def compare_price_payload : Option ℚ → Option ℚ
  | none => none
  | some c => if c = 0 then none else some c

/-- `update_single_variant_discount` from `main.py`. `remote` is the oracle
for `shopify_client.update_variant_price` (variant id, new price, optional
compare-price payload). The whole body is wrapped in `try/except` returning
`False`, so a `ValueError` from the calculator and a failing remote call both
yield `false`; the history write is modelled as always succeeding. -/
def update_single_variant_discount (remote : ℕ → ℚ → Option ℚ → CallResult)
    (strategy : DiscountStrategy) (value : ℚ) (target_discount : Option ℚ)
    (variant : Variant) : Bool :=
  match calculate_new_prices variant.price variant.compare_at_price strategy value
      target_discount with
  | .error _ => false
  | .ok (new_price, new_compare_at_price) =>
      match remote variant.id new_price (compare_price_payload new_compare_at_price) with
      | .ok => true
      | .err _ => false

/-- Job status strings stored in `task_progress[task_id]['status']`. -/
inductive JobStatus where
  | initializing
  | processing
  | completed
  | failed
deriving DecidableEq

/-- One entry of the per-job `errors` list. -/
structure JobError where
  product : String
  variant_id : ℕ
  error : String
deriving DecidableEq

/-- The `task_progress[task_id]` dict. `successful : Option ℕ` models that
the `'successful'` key is absent until the first per-variant progress update
writes it. `job_error` is the job-level `'error'` key set by the outer
`except` of `process_discount_update`. -/
structure Progress where
  status : JobStatus
  current : ℕ
  total : ℕ
  percentage : ℤ
  current_item : Option String
  errors : List JobError
  successful : Option ℕ
  session_id : String
  strategy : String
  job_error : Option String
deriving DecidableEq

/-- The progress dict created at the top of `process_discount_update`. -/
def initProgress (session_id : String) (strategy : DiscountStrategy) : Progress :=
  { status := .initializing
    current := 0
    total := 0
    percentage := 0
    current_item := none
    errors := []
    successful := none
    session_id := session_id
    strategy := strategy.value
    job_error := none }

/-- Result of asking the catalog collaborator for the filtered product list:
either a list of products, or a raised transport/auth exception. -/
inductive FetchResult where
  | ok (products : List Product)
  | fail (msg : String)

/-- `get_filtered_products` from `main.py`: the whole body is wrapped in
`try/except` that logs and returns `[]`, so a raising fetch yields the empty
list rather than propagating. -/
def get_filtered_products : FetchResult → List Product
  | .ok ps => ps
  | .fail _ => []

/-- `total_variants = sum(len(p.get('variants', [])) for p in products)`. -/
def total_variants (products : List Product) : ℕ :=
  (products.map fun p => p.variants.length).sum

/-- The nested `for product ... for variant ...` iteration order, flattened:
each unit is the product title paired with the variant. -/
def units (products : List Product) : List (String × Variant) :=
  products.flatMap fun p => p.variants.map fun v => (p.title, v)

/-- The loop state of `process_discount_update`: the progress dict plus the
local counters `current` and `successful_updates`. -/
structure LoopState where
  progress : Progress
  current : ℕ
  successful : ℕ

/-- One iteration of the per-variant loop body of `process_discount_update`
(the success path: none of the modelled operations raises, so the inner
`except` that appends to `errors` is not reachable here). -/
def stepVariant (remote : ℕ → ℚ → Option ℚ → CallResult)
    (strategy : DiscountStrategy) (value : ℚ) (target_discount : Option ℚ)
    (total : ℕ) (u : String × Variant) (s : LoopState) : LoopState :=
  let success := update_single_variant_discount remote strategy value target_discount u.2
  let successful := s.successful + (if success then 1 else 0)
  let current := s.current + 1
  { progress := { s.progress with
      current := current
      successful := some successful
      percentage := ⌊((current : ℚ) / (total : ℚ)) * 100⌋
      current_item := some (u.1 ++ " - " ++ u.2.title.getD "За замовчуванням") }
    current := current
    successful := successful }

/-- The loop state after processing a list of units. -/
def runUnitsFinal (remote : ℕ → ℚ → Option ℚ → CallResult)
    (strategy : DiscountStrategy) (value : ℚ) (target_discount : Option ℚ)
    (total : ℕ) : List (String × Variant) → LoopState → LoopState
  | [], s => s
  | u :: us, s =>
      runUnitsFinal remote strategy value target_discount total us
        (stepVariant remote strategy value target_discount total u s)

/-- The sequence of progress snapshots written to the registry by the
per-variant loop, one per processed unit. -/
def runUnitsTrace (remote : ℕ → ℚ → Option ℚ → CallResult)
    (strategy : DiscountStrategy) (value : ℚ) (target_discount : Option ℚ)
    (total : ℕ) : List (String × Variant) → LoopState → List Progress
  | [], _ => []
  | u :: us, s =>
      let s' := stepVariant remote strategy value target_discount total u s
      s'.progress :: runUnitsTrace remote strategy value target_discount total us s'

/-- The loop state right after the `total`/`status: processing` update. -/
def initialLoopState (session_id : String) (strategy : DiscountStrategy)
    (total : ℕ) : LoopState :=
  { progress := { initProgress session_id strategy with total := total, status := .processing }
    current := 0
    successful := 0 }

/-- The final registry entry of `process_discount_update`: after the loop the
status is set to `completed` (timestamps and the `final_stats` summary are
not modelled). In this model no operation of the loop raises, so the outer
`except` (status `failed`) is unreachable. -/
def final_progress (remote : ℕ → ℚ → Option ℚ → CallResult) (session_id : String)
    (strategy : DiscountStrategy) (value : ℚ) (target_discount : Option ℚ)
    (fetch : FetchResult) : Progress :=
  let products := get_filtered_products fetch
  let total := total_variants products
  let s := runUnitsFinal remote strategy value target_discount total (units products)
    (initialLoopState session_id strategy total)
  { s.progress with status := .completed }

/-- Every registry state of one `process_discount_update` run, in write
order: the initializing entry, the `total`/`processing` update, one snapshot
per processed unit, and the completing update. -/
def progress_trace (remote : ℕ → ℚ → Option ℚ → CallResult) (session_id : String)
    (strategy : DiscountStrategy) (value : ℚ) (target_discount : Option ℚ)
    (fetch : FetchResult) : List Progress :=
  let products := get_filtered_products fetch
  let total := total_variants products
  let s := initialLoopState session_id strategy total
  initProgress session_id strategy :: s.progress ::
    (runUnitsTrace remote strategy value target_discount total (units products) s ++
      [final_progress remote session_id strategy value target_discount fetch])

/-- What the `/update-prices` endpoint did before returning: whether the
rollback session was created and the background task scheduled. -/
structure StartOutcome where
  session_created : Bool
  job_scheduled : Bool
  response_status : String
deriving DecidableEq

/-- The synchronous part of the `update_prices` endpoint in `main.py`: it
validates only that the strategy string parses (`DiscountStrategy(strategy)`,
HTTP 400 on `ValueError`), then creates the rollback session, schedules
`process_discount_update` as a background task and returns `"started"`.
Neither `value` nor `target_discount` is inspected. -/
def update_prices (strategy_str : String) (_value : ℚ) (_target_discount : Option ℚ) :
    Except String StartOutcome :=
  match strategyFromString strategy_str with
  | none => .error "Невірна стратегія знижки"
  | some _ =>
      .ok { session_created := true, job_scheduled := true, response_status := "started" }

/-! ## Helper lemmas -/

/-- `roundHalfEven` on a value in the lower half of its unit interval. -/
lemma roundHalfEven_eq_of (q : ℚ) (n : ℤ) (h1 : (n : ℚ) ≤ q) (h2 : q < n + 1 / 2) :
    roundHalfEven q = n := by
  have hf : ⌊q⌋ = n := Int.floor_eq_iff.mpr ⟨h1, by linarith⟩
  have hfr : q - (n : ℚ) < 1 / 2 := by linarith
  simp only [roundHalfEven, hf, if_pos hfr]

/-- `round2` on a value whose hundredfold sits in the lower half of its unit
interval. -/
lemma round2_eq_of (q : ℚ) (n : ℤ) (h1 : (n : ℚ) ≤ q * 100) (h2 : q * 100 < n + 1 / 2) :
    round2 q = (n : ℚ) / 100 := by
  simp only [round2, roundHalfEven_eq_of (q * 100) n h1 h2]

/-- The remote payload omits the compare-price field exactly at `0`. -/
lemma compare_price_payload_some (c : ℚ) :
    (compare_price_payload (some c) = none ↔ (some c : Option ℚ) = some 0) := by
  by_cases hc : c = 0 <;> simp [compare_price_payload, hc]

/-! ## C1 — the per-strategy price table -/

/-- Modelled from the spec's table, amended: "existing compare price, or
`currentPrice` if absent", where (per the source's truthiness test) an
existing compare price of `0` counts as absent. -/
def spec_compare_base (current_price : ℚ) : Option ℚ → ℚ
  | none => current_price
  | some c => if c = 0 then current_price else c

/-- Modelled from the spec's `BothDirections` row, amended the same way: a
present nonzero compare price moves by `1.5 × value`, otherwise the compare
price is synthesized as `currentPrice × (1 + 2|value|/100)`. -/
def spec_both_compare (current_price : ℚ) (ccap : Option ℚ) (value : ℚ) : ℚ :=
  match ccap with
  | none => current_price * (1 + 2 * |value| / 100)
  | some c =>
      if c = 0 then current_price * (1 + 2 * |value| / 100)
      else c * (1 + (3 / 2) * value / 100)

/-- C1, counterexample: with an existing compare price of `0`, the spec's
table demands `newComparePrice = 0 × (1 + 10/100) = 0`, but the source's
truthiness test (`if current_compare_at_price:`) treats `0.0` as absent and
synthesizes the compare price from `currentPrice`, returning `110`. -/
theorem cex_strategy_table_zero_compare :
    calculate_new_prices 100 (some 0) .increaseCompareOnly 10 none =
      .ok (100, some 110) ∧ ((110 : ℚ) ≠ 0 * (1 + 10 / 100)) := by
  constructor
  · simp only [calculate_new_prices, isTruthy]
    norm_num
  · norm_num

/-- C1, amended: for every `currentPrice > 0`, every `value` and every
optional compare price, `calculate_new_prices` follows the spec's table once
"existing compare price present" is read as "present and nonzero" (the
source's Python truthiness): `IncreaseCompareOnly` keeps the price and scales
the effective compare base by `1 + value/100`; `DecreasePriceOnly` returns
`currentPrice × (1 − |value|/100)` and anchors the compare price at the
effective base; `BothDirections` returns `currentPrice × (1 + value/100)`
with the compare price moving `1.5×` as much when present and nonzero, else
`currentPrice × (1 + 2|value|/100)`. -/
theorem strategy_table_amended (p v : ℚ) (ccap t : Option ℚ) (hp : 0 < p) :
    calculate_new_prices p ccap .increaseCompareOnly v t =
      .ok (p, some (spec_compare_base p ccap * (1 + v / 100))) ∧
    calculate_new_prices p ccap .decreasePriceOnly v t =
      .ok (p * (1 - |v| / 100), some (spec_compare_base p ccap)) ∧
    calculate_new_prices p ccap .bothDirections v t =
      .ok (p * (1 + v / 100), some (spec_both_compare p ccap v)) := by
  have habs : |v * 2| = 2 * |v| := by rw [abs_mul, abs_two, mul_comm]
  have h32 : v * (3 / 2) = (3 / 2) * v := mul_comm v (3 / 2)
  refine ⟨?_, ?_, ?_⟩ <;>
    cases ccap with
    | none => simp [calculate_new_prices, isTruthy, spec_compare_base, spec_both_compare,
        habs, h32]
    | some c =>
        by_cases hc : c = 0 <;>
          simp [calculate_new_prices, isTruthy, spec_compare_base, spec_both_compare,
            hc, habs, h32]

/-- C1, witness at `currentPrice = 100`, `value = 15`, compare `120`. -/
theorem strategy_table_amended_witness :
    (0 : ℚ) < 100 ∧
    (calculate_new_prices 100 (some 120) .increaseCompareOnly 15 none =
        .ok (100, some (spec_compare_base 100 (some 120) * (1 + 15 / 100))) ∧
      calculate_new_prices 100 (some 120) .decreasePriceOnly 15 none =
        .ok (100 * (1 - |(15 : ℚ)| / 100), some (spec_compare_base 100 (some 120))) ∧
      calculate_new_prices 100 (some 120) .bothDirections 15 none =
        .ok (100 * (1 + 15 / 100), some (spec_both_compare 100 (some 120) 15))) :=
  ⟨by norm_num, strategy_table_amended 100 15 (some 120) none (by norm_num)⟩

/-! ## C3 — discount percentage non-negativity -/

/-- C3, counterexample: the claim quantifies over all `price, comparePrice`,
but at the negative pair `price = −10, comparePrice = −5` the source skips
the `compare_at_price <= price` guard (−5 > −10) and computes
`((−5 − (−10)) / (−5)) × 100 = −100 < 0`. -/
theorem cex_discount_percentage_negative :
    calculate_discount_percentage (-10) (-5) = -100 ∧
    calculate_discount_percentage (-10) (-5) < 0 := by
  constructor <;> · simp only [calculate_discount_percentage]; norm_num

/-- C3, amended: restricted to non-negative `price` (the natural domain of a
price), `calculate_discount_percentage` is non-negative, is `0` whenever
`comparePrice ≤ price`, and otherwise equals
`(comparePrice − price) / comparePrice × 100`. -/
theorem discount_percentage_nonneg_amended (price compare : ℚ) (hp : 0 ≤ price) :
    0 ≤ calculate_discount_percentage price compare ∧
    (compare ≤ price → calculate_discount_percentage price compare = 0) ∧
    (price < compare →
      calculate_discount_percentage price compare = ((compare - price) / compare) * 100) := by
  unfold calculate_discount_percentage
  by_cases h : compare ≤ price
  · refine ⟨by simp [h], fun _ => by simp [h], fun hc => absurd hc (not_lt.mpr h)⟩
  · have hc : price < compare := not_le.mp h
    have hpos : (0 : ℚ) < compare := lt_of_le_of_lt hp hc
    refine ⟨?_, fun hle => absurd hle h, fun _ => by simp [h]⟩
    rw [if_neg h]
    have h1 : (0 : ℚ) ≤ (compare - price) / compare :=
      div_nonneg (by linarith) hpos.le
    linarith

/-- C3, witness at `price = 100`, `comparePrice = 120`. -/
theorem discount_percentage_nonneg_amended_witness :
    (0 : ℚ) ≤ 100 ∧
    (0 ≤ calculate_discount_percentage 100 120 ∧
      ((120 : ℚ) ≤ 100 → calculate_discount_percentage 100 120 = 0) ∧
      ((100 : ℚ) < 120 →
        calculate_discount_percentage 100 120 = ((120 - 100) / 120) * 100)) :=
  ⟨by norm_num, discount_percentage_nonneg_amended 100 120 (by norm_num)⟩

/-! ## C6 — SetDiscountPercentage round-trip -/

/-- C6: for `currentPrice > 0` and `0 ≤ D < 100`, the `SetDiscountPercentage`
strategy keeps the price, sets the compare price to
`currentPrice / (1 − D/100)`, and `calculate_discount_percentage` recovers
`D` from the resulting pair within `1e-6` (in this rational model the
round-trip is in fact exact). -/
theorem set_discount_round_trip (p D v : ℚ) (ccap : Option ℚ)
    (hp : 0 < p) (hD0 : 0 ≤ D) (hD1 : D < 100) :
    calculate_new_prices p ccap .setDiscountPercentage v (some D) =
      .ok (p, some (p / (1 - D / 100))) ∧
    |calculate_discount_percentage p (p / (1 - D / 100)) - D| ≤ 1 / 1000000 := by
  have hd : (0 : ℚ) < 1 - D / 100 := by linarith
  refine ⟨rfl, ?_⟩
  have hkey : calculate_discount_percentage p (p / (1 - D / 100)) = D := by
    rcases eq_or_lt_of_le hD0 with h0 | hDpos
    · rw [← h0]
      norm_num [calculate_discount_percentage]
    · have hc : p < p / (1 - D / 100) := by
        rw [lt_div_iff₀ hd]
        nlinarith
      have hcne : p / (1 - D / 100) ≠ 0 := ne_of_gt (div_pos hp hd)
      have hdne : (1 : ℚ) - D / 100 ≠ 0 := ne_of_gt hd
      unfold calculate_discount_percentage
      have h100 : (100 : ℚ) - D ≠ 0 := by linarith
      rw [if_neg (not_le.mpr hc), div_mul_eq_mul_div, div_eq_iff hcne]
      field_simp [h100]
      ring
  rw [hkey]
  simp

/-- C6, witness at `currentPrice = 100`, `D = 30`. -/
theorem set_discount_round_trip_witness :
    ((0 : ℚ) < 100 ∧ (0 : ℚ) ≤ 30 ∧ (30 : ℚ) < 100) ∧
    (calculate_new_prices 100 (some 120) .setDiscountPercentage 0 (some 30) =
        .ok (100, some (100 / (1 - 30 / 100))) ∧
      |calculate_discount_percentage 100 (100 / (1 - 30 / 100)) - 30| ≤ 1 / 1000000) :=
  ⟨by norm_num,
    set_discount_round_trip 100 30 0 (some 120) (by norm_num) (by norm_num) (by norm_num)⟩

/-! ## C10 — a compare price is always computed -/

/-- C10: whenever `calculate_new_prices` returns (does not raise), the
returned compare price is present (`some`) — every branch either keeps the
existing compare price or synthesizes one — and the batch updater's payload
omits the compare-price field exactly when that computed compare price is
`0`, never because none was computed. -/
theorem compare_price_always_present (p v np : ℚ) (ccap t nco : Option ℚ)
    (s : DiscountStrategy)
    (h : calculate_new_prices p ccap s v t = .ok (np, nco)) :
    nco.isSome = true ∧ (compare_price_payload nco = none ↔ nco = some 0) := by
  cases s
  case setDiscountPercentage =>
    cases t with
    | none => simp [calculate_new_prices] at h
    | some d =>
        simp only [calculate_new_prices, Except.ok.injEq, Prod.mk.injEq] at h
        rw [← h.2]
        exact ⟨rfl, compare_price_payload_some _⟩
  all_goals
    simp only [calculate_new_prices, Except.ok.injEq, Prod.mk.injEq] at h
  all_goals
    rw [← h.2]
    exact ⟨rfl, compare_price_payload_some _⟩

/-- C10, witness: `IncreaseCompareOnly` at `(100, some 120, 15)` computes the
pair `(100, some 138)`. -/
theorem compare_price_always_present_witness :
    (Option.isSome (some (138 : ℚ)) = true ∧
      (compare_price_payload (some (138 : ℚ)) = none ↔ (some (138 : ℚ) : Option ℚ) = some 0)) :=
  compare_price_always_present 100 15 100 (some 120) none (some 138) .increaseCompareOnly
    (by simp only [calculate_new_prices, isTruthy]; norm_num)

/-! ## C8 — preview rounding -/

/-- C8, counterexample: at `currentPrice = 100.001` the claim says the
preview echoes the current price rounded to 2 decimals (`100.00`), but the
source (`'current_price': current_price`) returns it unrounded: the field
equals `100.001`, which differs from its own 2-decimal rounding. -/
theorem cex_preview_current_price_unrounded :
    preview_discount_change (100001 / 1000) none .increaseCompareOnly 0 none =
      .ok { current_price := 100001 / 1000
            current_compare_at_price := none
            current_discount_percentage := 0
            new_price := 100
            new_compare_at_price := some 100
            new_discount_percentage := 0
            discount_change := 0
            strategy_description := "Збільшення тільки порівняльної ціни (збільшити знижку)" } ∧
    round2 (100001 / 1000) ≠ (100001 / 1000 : ℚ) := by
  have h2 : round2 (100001 / 1000 : ℚ) = 100 := by
    rw [round2_eq_of (100001 / 1000 : ℚ) 10000 (by norm_num) (by norm_num)]
    norm_num
  have h0 : round2 (0 : ℚ) = 0 := by
    rw [round2_eq_of 0 0 (by norm_num) (by norm_num)]
    norm_num
  have hc0 : (100001 / 1000 : ℚ) * (1 + 0 / 100) = 100001 / 1000 := by norm_num
  have hne : (100001 / 1000 : ℚ) ≠ 0 := by norm_num
  have hnlt : ¬((100001 / 1000 : ℚ) < 100001 / 1000) := by norm_num
  constructor
  · simp [preview_discount_change, calculate_new_prices, isTruthy, discount_if_truthy,
      get_strategy_description, hc0, h0, h2, hne, hnlt]
  · rw [h2]; norm_num

/-- C8, amended: `preview_discount_change` rounds the computed values — both
discount percentages, the new price, the new compare price and the discount
delta — to 2 decimals and attaches the per-strategy description, but it
echoes the current price and current compare price back unrounded. -/
theorem preview_rounding_amended (p v : ℚ) (ccap t : Option ℚ) (s : DiscountStrategy)
    (np : ℚ) (nco : Option ℚ)
    (h : calculate_new_prices p ccap s v t = .ok (np, nco)) :
    preview_discount_change p ccap s v t =
      .ok { current_price := p
            current_compare_at_price := ccap
            current_discount_percentage := round2 (discount_if_truthy p ccap)
            new_price := round2 np
            new_compare_at_price :=
              match nco with
              | none => none
              | some c => if c ≠ 0 then some (round2 c) else none
            new_discount_percentage := round2 (discount_if_truthy np nco)
            discount_change :=
              round2 (discount_if_truthy np nco - discount_if_truthy p ccap)
            strategy_description := get_strategy_description s } := by
  simp only [preview_discount_change, h]
  cases nco <;> rfl

/-- C8, witness at `(100, some 120, IncreaseCompareOnly, 15)`, whose computed
pair is `(100, some 138)`. -/
theorem preview_rounding_amended_witness :
    preview_discount_change 100 (some 120) .increaseCompareOnly 15 none =
      .ok { current_price := 100
            current_compare_at_price := some 120
            current_discount_percentage := round2 (discount_if_truthy 100 (some 120))
            new_price := round2 100
            new_compare_at_price :=
              match (some 138 : Option ℚ) with
              | none => none
              | some c => if c ≠ 0 then some (round2 c) else none
            new_discount_percentage := round2 (discount_if_truthy 100 (some 138))
            discount_change :=
              round2 (discount_if_truthy 100 (some 138) - discount_if_truthy 100 (some 120))
            strategy_description := get_strategy_description .increaseCompareOnly } :=
  preview_rounding_amended 100 15 (some 120) none .increaseCompareOnly 100 (some 138)
    (by simp only [calculate_new_prices, isTruthy]; norm_num)

/-! ## Batch-loop lemmas -/

lemma units_length (products : List Product) :
    (units products).length = total_variants products := by
  induction products with
  | nil => rfl
  | cons p ps ih =>
      simp only [units, total_variants, List.flatMap_cons, List.map_cons, List.sum_cons,
        List.length_append, List.length_map] at *
      omega

lemma runUnitsFinal_current (rem : ℕ → ℚ → Option ℚ → CallResult)
    (s : DiscountStrategy) (v : ℚ) (t : Option ℚ) (total : ℕ)
    (us : List (String × Variant)) (st : LoopState) :
    (runUnitsFinal rem s v t total us st).current = st.current + us.length := by
  induction us generalizing st with
  | nil => simp [runUnitsFinal]
  | cons u us ih =>
      simp only [runUnitsFinal, ih, stepVariant, List.length_cons]
      omega

lemma runUnitsFinal_successful (rem : ℕ → ℚ → Option ℚ → CallResult)
    (s : DiscountStrategy) (v : ℚ) (t : Option ℚ) (total : ℕ)
    (us : List (String × Variant)) (st : LoopState) :
    (runUnitsFinal rem s v t total us st).successful =
      st.successful + us.countP (fun u => update_single_variant_discount rem s v t u.2) := by
  induction us generalizing st with
  | nil => simp [runUnitsFinal]
  | cons u us ih =>
      simp only [runUnitsFinal, ih, stepVariant, List.countP_cons]
      omega

lemma runUnitsFinal_errors (rem : ℕ → ℚ → Option ℚ → CallResult)
    (s : DiscountStrategy) (v : ℚ) (t : Option ℚ) (total : ℕ)
    (us : List (String × Variant)) (st : LoopState) :
    (runUnitsFinal rem s v t total us st).progress.errors = st.progress.errors := by
  induction us generalizing st with
  | nil => rfl
  | cons u us ih => simp only [runUnitsFinal, ih, stepVariant]

lemma runUnitsFinal_total (rem : ℕ → ℚ → Option ℚ → CallResult)
    (s : DiscountStrategy) (v : ℚ) (t : Option ℚ) (total : ℕ)
    (us : List (String × Variant)) (st : LoopState) :
    (runUnitsFinal rem s v t total us st).progress.total = st.progress.total := by
  induction us generalizing st with
  | nil => rfl
  | cons u us ih => simp only [runUnitsFinal, ih, stepVariant]

lemma runUnitsFinal_progress_current (rem : ℕ → ℚ → Option ℚ → CallResult)
    (s : DiscountStrategy) (v : ℚ) (t : Option ℚ) (total : ℕ)
    (us : List (String × Variant)) (st : LoopState)
    (h : st.progress.current = st.current) :
    (runUnitsFinal rem s v t total us st).progress.current =
      (runUnitsFinal rem s v t total us st).current := by
  induction us generalizing st with
  | nil => simpa [runUnitsFinal] using h
  | cons u us ih =>
      simp only [runUnitsFinal]
      exact ih _ (by simp [stepVariant])

lemma runUnitsFinal_progress_successful (rem : ℕ → ℚ → Option ℚ → CallResult)
    (s : DiscountStrategy) (v : ℚ) (t : Option ℚ) (total : ℕ)
    (us : List (String × Variant)) (st : LoopState)
    (h : st.progress.successful = some st.successful) :
    (runUnitsFinal rem s v t total us st).progress.successful =
      some (runUnitsFinal rem s v t total us st).successful := by
  induction us generalizing st with
  | nil => simpa [runUnitsFinal] using h
  | cons u us ih =>
      simp only [runUnitsFinal]
      exact ih _ (by simp [stepVariant])

lemma runUnitsFinal_progress_successful_cons (rem : ℕ → ℚ → Option ℚ → CallResult)
    (s : DiscountStrategy) (v : ℚ) (t : Option ℚ) (total : ℕ)
    (u : String × Variant) (us : List (String × Variant)) (st : LoopState) :
    (runUnitsFinal rem s v t total (u :: us) st).progress.successful =
      some (runUnitsFinal rem s v t total (u :: us) st).successful := by
  simp only [runUnitsFinal]
  exact runUnitsFinal_progress_successful rem s v t total us _ (by simp [stepVariant])

/-- A unit whose remote call succeeds is counted as a success (provided the
calculator does not raise, i.e. the strategy is not `SetDiscountPercentage`
with a missing target). -/
lemma update_single_eq_true (rem : ℕ → ℚ → Option ℚ → CallResult)
    (strategy : DiscountStrategy) (value : ℚ) (target : Option ℚ) (v : Variant)
    (hcalc : strategy = .setDiscountPercentage → target ≠ none)
    (hremote : ∀ q o, rem v.id q o = CallResult.ok) :
    update_single_variant_discount rem strategy value target v = true := by
  cases strategy
  case setDiscountPercentage =>
    cases ht : target with
    | none => exact absurd ht (hcalc rfl)
    | some d => simp [update_single_variant_discount, calculate_new_prices, ht, hremote]
  all_goals simp [update_single_variant_discount, calculate_new_prices, hremote]

/-- A unit whose remote call raises yields `False` (the error is swallowed
inside `update_single_variant_discount`). -/
lemma update_single_eq_false (rem : ℕ → ℚ → Option ℚ → CallResult)
    (strategy : DiscountStrategy) (value : ℚ) (target : Option ℚ) (v : Variant)
    (msg : String) (hremote : ∀ q o, rem v.id q o = CallResult.err msg) :
    update_single_variant_discount rem strategy value target v = false := by
  unfold update_single_variant_discount
  cases h : calculate_new_prices v.price v.compare_at_price strategy value target with
  | error e => rfl
  | ok pr =>
      cases pr
      simp [hremote]

/-- With `SetDiscountPercentage` and no target percentage the calculator
raises, so every unit fails regardless of the remote collaborator. -/
lemma update_single_eq_false_no_target (rem : ℕ → ℚ → Option ℚ → CallResult)
    (value : ℚ) (v : Variant) :
    update_single_variant_discount rem .setDiscountPercentage value none v = false := rfl

/-! ## Demo data for witnesses and counterexamples -/

/-- A variant with an existing compare price. -/
def demoVariant1 : Variant :=
  { id := 1, title := some "Default", price := 100, compare_at_price := some 120 }

/-- A variant without a compare price. -/
def demoVariant2 : Variant :=
  { id := 2, title := none, price := 50, compare_at_price := none }

/-- A product with two priced units. -/
def demoProduct : Product :=
  { id := 10, title := "Demo", variants := [demoVariant1, demoVariant2] }

/-- A remote-update oracle that always succeeds. -/
def remoteAllOk : ℕ → ℚ → Option ℚ → CallResult := fun _ _ _ => .ok

/-- A remote-update oracle that fails exactly on variant id 2. -/
def remoteFailOn2 : ℕ → ℚ → Option ℚ → CallResult :=
  fun i _ _ => if i = 2 then .err "network error" else .ok

/-! ## C7 — batch completeness -/

/-- C7, counterexample at the degenerate batch of `N = 0` priced units
(every remote call trivially succeeds): the claim demands
`successfulCount == N`, i.e. `some 0`, but the `'successful'` key is only
written by the first per-unit progress update, so for an empty batch the
final progress has no success counter at all (`none`). The other three
conclusions do hold. -/
theorem cex_batch_completeness_empty :
    (final_progress remoteAllOk "sess" .increaseCompareOnly 10 none
        (.ok [])).successful = none ∧
    total_variants ([] : List Product) = 0 ∧
    (final_progress remoteAllOk "sess" .increaseCompareOnly 10 none
        (.ok [])).successful ≠ some (total_variants ([] : List Product)) :=
  ⟨rfl, rfl, fun h => Option.noConfusion h⟩

/-- C7, amended: for a batch of `N ≥ 1` priced units in which every remote update
call succeeds (and the calculator is well-formed, i.e. not
`SetDiscountPercentage` without a target — otherwise no remote call would be
made at all), the final job progress has `current = N`,
`successfulCount = N`, an empty `errors` sequence and status `completed`.
(`N ≥ 1` because the `'successful'` key is first written by the first
per-unit progress update.) -/
theorem batch_completeness (remote : ℕ → ℚ → Option ℚ → CallResult)
    (session : String) (strategy : DiscountStrategy) (value : ℚ)
    (target : Option ℚ) (products : List Product)
    (hremote : ∀ i q o, remote i q o = CallResult.ok)
    (hcalc : strategy = .setDiscountPercentage → target ≠ none)
    (hN : 0 < total_variants products) :
    (final_progress remote session strategy value target (.ok products)).current =
        total_variants products ∧
    (final_progress remote session strategy value target (.ok products)).successful =
        some (total_variants products) ∧
    (final_progress remote session strategy value target (.ok products)).errors = [] ∧
    (final_progress remote session strategy value target (.ok products)).status =
        JobStatus.completed := by
  have hcount : (units products).countP
      (fun u => update_single_variant_discount remote strategy value target u.2) =
      (units products).length :=
    List.countP_eq_length.mpr fun u _ =>
      update_single_eq_true remote strategy value target u.2 hcalc
        (fun q o => hremote u.2.id q o)
  have hne : units products ≠ [] := by
    rw [← units_length] at hN
    exact List.length_pos.mp hN
  refine ⟨?_, ?_, ?_, rfl⟩
  · show (runUnitsFinal remote strategy value target (total_variants products)
      (units products) (initialLoopState session strategy (total_variants products))).progress.current = _
    rw [runUnitsFinal_progress_current _ _ _ _ _ _ _ rfl, runUnitsFinal_current, units_length]
    simp [initialLoopState]
  · cases hu : units products with
    | nil => exact absurd hu hne
    | cons u us =>
        show (runUnitsFinal remote strategy value target (total_variants products)
          (units products) (initialLoopState session strategy (total_variants products))).progress.successful = _
        rw [hu, runUnitsFinal_progress_successful_cons, runUnitsFinal_successful]
        rw [hu] at hcount
        rw [hcount, ← units_length, hu]
        simp [initialLoopState]
  · show (runUnitsFinal remote strategy value target (total_variants products)
      (units products) (initialLoopState session strategy (total_variants products))).progress.errors = _
    rw [runUnitsFinal_errors]
    rfl

/-- C7, witness: the two-unit demo product with an always-succeeding remote
collaborator. -/
theorem batch_completeness_witness :
    (final_progress remoteAllOk "sess" .increaseCompareOnly 10 none
        (.ok [demoProduct])).current = total_variants [demoProduct] ∧
    (final_progress remoteAllOk "sess" .increaseCompareOnly 10 none
        (.ok [demoProduct])).successful = some (total_variants [demoProduct]) ∧
    (final_progress remoteAllOk "sess" .increaseCompareOnly 10 none
        (.ok [demoProduct])).errors = [] ∧
    (final_progress remoteAllOk "sess" .increaseCompareOnly 10 none
        (.ok [demoProduct])).status = JobStatus.completed :=
  batch_completeness remoteAllOk "sess" .increaseCompareOnly 10 none [demoProduct]
    (fun _ _ _ => rfl) (fun h => DiscountStrategy.noConfusion h) (by decide)

/-! ## C2 — partial-failure containment -/

/-- C2, counterexample: a batch of two units in which the second unit's
remote call fails. The claim requires the final `errors` sequence to contain
exactly the failed unit, but `update_single_variant_discount` catches the
remote failure internally (prints and returns `False`), so the error-append
handler of the loop never fires: the job completes with `current = 2` and
an *empty* `errors` list. -/
theorem cex_failed_unit_not_in_errors :
    (final_progress remoteFailOn2 "sess" .increaseCompareOnly 10 none
        (.ok [demoProduct])).current = 2 ∧
    (final_progress remoteFailOn2 "sess" .increaseCompareOnly 10 none
        (.ok [demoProduct])).status = JobStatus.completed ∧
    (final_progress remoteFailOn2 "sess" .increaseCompareOnly 10 none
        (.ok [demoProduct])).errors = [] := by
  refine ⟨?_, rfl, ?_⟩
  · simp [final_progress, get_filtered_products, units, total_variants, initialLoopState,
      initProgress, runUnitsFinal, stepVariant, update_single_variant_discount,
      calculate_new_prices, remoteFailOn2, demoProduct, demoVariant1, demoVariant2]
  · simp [final_progress, get_filtered_products, units, total_variants, initialLoopState,
      initProgress, runUnitsFinal, stepVariant, update_single_variant_discount,
      calculate_new_prices, remoteFailOn2, demoProduct, demoVariant1, demoVariant2]

/-- C2, amended: if one unit's remote call fails and the remote calls of all
other units succeed, the job still attempts every unit: final
`current = N`, status `completed` (not `failed`), and `successfulCount =
N − 1`; but the failure is only visible through the success count — the
`errors` sequence stays empty, because `update_single_variant_discount`
swallows the remote exception and returns `False` instead of letting the
loop's error-recording handler see it. -/
theorem failure_containment_amended (remote : ℕ → ℚ → Option ℚ → CallResult)
    (session : String) (strategy : DiscountStrategy) (value : ℚ)
    (target : Option ℚ) (products : List Product)
    (pre post : List (String × Variant)) (u : String × Variant) (msg : String)
    (hunits : units products = pre ++ u :: post)
    (hcalc : strategy = .setDiscountPercentage → target ≠ none)
    (hok : ∀ w ∈ pre ++ post, ∀ q o, remote w.2.id q o = CallResult.ok)
    (hfail : ∀ q o, remote u.2.id q o = CallResult.err msg) :
    (final_progress remote session strategy value target (.ok products)).current =
        total_variants products ∧
    (final_progress remote session strategy value target (.ok products)).status =
        JobStatus.completed ∧
    (final_progress remote session strategy value target (.ok products)).successful =
        some (total_variants products - 1) ∧
    (final_progress remote session strategy value target (.ok products)).errors = [] := by
  have hN : (units products).length = total_variants products := units_length products
  have hcount : (units products).countP
      (fun w => update_single_variant_discount remote strategy value target w.2) =
      pre.length + post.length := by
    rw [hunits, List.countP_append, List.countP_cons]
    have hpre : pre.countP
        (fun w => update_single_variant_discount remote strategy value target w.2) =
        pre.length :=
      List.countP_eq_length.mpr fun w hw =>
        update_single_eq_true remote strategy value target w.2 hcalc
          (hok w (List.mem_append_left _ hw))
    have hpost : post.countP
        (fun w => update_single_variant_discount remote strategy value target w.2) =
        post.length :=
      List.countP_eq_length.mpr fun w hw =>
        update_single_eq_true remote strategy value target w.2 hcalc
          (hok w (List.mem_append_right _ hw))
    rw [hpre, hpost,
      update_single_eq_false remote strategy value target u.2 msg hfail]
    simp
  have hlen : total_variants products = pre.length + post.length + 1 := by
    rw [← hN, hunits]
    simp [List.length_append]
    omega
  refine ⟨?_, rfl, ?_, ?_⟩
  · show (runUnitsFinal remote strategy value target (total_variants products)
      (units products) (initialLoopState session strategy (total_variants products))).progress.current = _
    rw [runUnitsFinal_progress_current _ _ _ _ _ _ _ rfl, runUnitsFinal_current, units_length]
    simp [initialLoopState]
  · cases hu : units products with
    | nil => rw [hunits] at hu; exact absurd hu (by simp)
    | cons w ws =>
        show (runUnitsFinal remote strategy value target (total_variants products)
          (units products) (initialLoopState session strategy (total_variants products))).progress.successful = _
        rw [hu, runUnitsFinal_progress_successful_cons, runUnitsFinal_successful]
        rw [hu] at hcount
        rw [hcount, hlen]
        simp [initialLoopState]
  · show (runUnitsFinal remote strategy value target (total_variants products)
      (units products) (initialLoopState session strategy (total_variants products))).progress.errors = _
    rw [runUnitsFinal_errors]
    rfl

/-- C2, witness: the amended containment at the two-unit demo product whose
second unit's remote call fails. -/
theorem failure_containment_amended_witness :
    (final_progress remoteFailOn2 "w2" .increaseCompareOnly 10 none
        (.ok [demoProduct])).current = total_variants [demoProduct] ∧
    (final_progress remoteFailOn2 "w2" .increaseCompareOnly 10 none
        (.ok [demoProduct])).status = JobStatus.completed ∧
    (final_progress remoteFailOn2 "w2" .increaseCompareOnly 10 none
        (.ok [demoProduct])).successful = some (total_variants [demoProduct] - 1) ∧
    (final_progress remoteFailOn2 "w2" .increaseCompareOnly 10 none
        (.ok [demoProduct])).errors = [] :=
  failure_containment_amended remoteFailOn2 "w2" .increaseCompareOnly 10 none
    [demoProduct] [("Demo", demoVariant1)] [] ("Demo", demoVariant2) "network error"
    rfl (fun h => DiscountStrategy.noConfusion h)
    (by
      intro w hw q o
      have hw' : w = ("Demo", demoVariant1) := by simpa using hw
      subst hw'
      rfl)
    (fun q o => rfl)

/-! ## C4 — missing target percentage is not rejected synchronously -/

/-- C4, counterexample: selecting `SetDiscountPercentage` with no target
percentage is *not* surfaced synchronously: `update_prices` validates only
the strategy string, creates the rollback session, schedules the background
job and answers `"started"`; the job then attempts every unit (here both
units of the demo product, `current = 2`), each failing inside
`update_single_variant_discount` (`successful = 0`). -/
theorem cex_missing_target_job_still_started :
    update_prices "set_discount_percentage" 15 none =
      .ok { session_created := true, job_scheduled := true, response_status := "started" } ∧
    (final_progress remoteAllOk "sess" .setDiscountPercentage 15 none
        (.ok [demoProduct])).current = 2 ∧
    (final_progress remoteAllOk "sess" .setDiscountPercentage 15 none
        (.ok [demoProduct])).successful = some 0 := by
  refine ⟨rfl, ?_, ?_⟩
  · simp [final_progress, get_filtered_products, units, total_variants, initialLoopState,
      initProgress, runUnitsFinal, stepVariant, update_single_variant_discount,
      calculate_new_prices, demoProduct, demoVariant1, demoVariant2]
  · simp [final_progress, get_filtered_products, units, total_variants, initialLoopState,
      initProgress, runUnitsFinal, stepVariant, update_single_variant_discount,
      calculate_new_prices, demoProduct, demoVariant1, demoVariant2]

/-- C4, amended: when `SetDiscountPercentage` is selected without a target
percentage, the job-start endpoint does not reject the request: the rollback
session is created, the background job is scheduled and `"started"` is
returned; the `ValueError` is raised only later, per unit, inside
`update_single_variant_discount`, so the job attempts all `N` units, each
fails, and the job completes with zero successes (`successful` stays absent
when the batch is empty, since the key is first written by a unit update). -/
theorem missing_target_not_synchronous (remote : ℕ → ℚ → Option ℚ → CallResult)
    (session : String) (value : ℚ) (products : List Product) :
    update_prices "set_discount_percentage" value none =
      .ok { session_created := true, job_scheduled := true, response_status := "started" } ∧
    (final_progress remote session .setDiscountPercentage value none
        (.ok products)).current = total_variants products ∧
    (final_progress remote session .setDiscountPercentage value none
        (.ok products)).status = JobStatus.completed ∧
    (final_progress remote session .setDiscountPercentage value none
        (.ok products)).successful =
      (if total_variants products = 0 then none else some 0) := by
  refine ⟨rfl, ?_, rfl, ?_⟩
  · show (runUnitsFinal remote .setDiscountPercentage value none (total_variants products)
      (units products) (initialLoopState session .setDiscountPercentage (total_variants products))).progress.current = _
    rw [runUnitsFinal_progress_current _ _ _ _ _ _ _ rfl, runUnitsFinal_current, units_length]
    simp [initialLoopState]
  · have hcount : (units products).countP
        (fun w => update_single_variant_discount remote .setDiscountPercentage value none w.2) = 0 := by
      rw [List.countP_eq_zero]
      intro w _
      simp [update_single_eq_false_no_target]
    cases hu : units products with
    | nil =>
        have h0 : total_variants products = 0 := by
          rw [← units_length, hu]
          rfl
        show (runUnitsFinal remote .setDiscountPercentage value none (total_variants products)
          (units products) (initialLoopState session .setDiscountPercentage (total_variants products))).progress.successful = _
        rw [hu, h0]
        rfl
    | cons w ws =>
        have h0 : total_variants products ≠ 0 := by
          rw [← units_length, hu]
          simp
        show (runUnitsFinal remote .setDiscountPercentage value none (total_variants products)
          (units products) (initialLoopState session .setDiscountPercentage (total_variants products))).progress.successful = _
        rw [hu, runUnitsFinal_progress_successful_cons, runUnitsFinal_successful]
        rw [hu] at hcount
        rw [hcount, if_neg h0]
        rfl

/-! ## C5 — enumeration failures do not fail the job -/

/-- C5, counterexample: when the candidate enumeration raises (here an auth
failure), `get_filtered_products` swallows the exception and returns `[]`,
so the job does *not* transition to `failed`: it completes normally as if
there were zero items (`total = 0`), with no job-level error recorded. -/
theorem cex_enumeration_failure_completes :
    (final_progress remoteAllOk "sess" .increaseCompareOnly 10 none
        (.fail "HTTP 401 auth error")).status = JobStatus.completed ∧
    (final_progress remoteAllOk "sess" .increaseCompareOnly 10 none
        (.fail "HTTP 401 auth error")).status ≠ JobStatus.failed ∧
    (final_progress remoteAllOk "sess" .increaseCompareOnly 10 none
        (.fail "HTTP 401 auth error")).total = 0 :=
  ⟨rfl, fun h => JobStatus.noConfusion h, rfl⟩

/-- C5, amended: a transport/auth failure during candidate enumeration is
caught inside `get_filtered_products`, which returns the empty list; the job
therefore completes as if there were zero items — status `completed` (never
`failed`), `total = 0`, `current = 0`, empty `errors`, no success counter
and no job-level error — instead of propagating and failing the job. -/
theorem enumeration_failure_amended (remote : ℕ → ℚ → Option ℚ → CallResult)
    (session : String) (strategy : DiscountStrategy) (value : ℚ)
    (target : Option ℚ) (msg : String) :
    (final_progress remote session strategy value target (.fail msg)).status =
        JobStatus.completed ∧
    (final_progress remote session strategy value target (.fail msg)).total = 0 ∧
    (final_progress remote session strategy value target (.fail msg)).current = 0 ∧
    (final_progress remote session strategy value target (.fail msg)).errors = [] ∧
    (final_progress remote session strategy value target (.fail msg)).successful = none ∧
    (final_progress remote session strategy value target (.fail msg)).job_error = none :=
  ⟨rfl, rfl, rfl, rfl, rfl, rfl⟩

/-! ## C9 — progress counters are monotone -/

/-- Order on the optional `successful` counter: an absent key may become any
value; once present it must not decrease. -/
def OptNatLE : Option ℕ → Option ℕ → Prop
  | none, _ => True
  | some _, none => False
  | some a, some b => a ≤ b

/-- The monotonicity relation of C9 between consecutive registry states:
none of `current`, `percentage`, `successfulCount` decreases. -/
def ProgressLE (p q : Progress) : Prop :=
  p.current ≤ q.current ∧ p.percentage ≤ q.percentage ∧ OptNatLE p.successful q.successful

lemma OptNatLE_refl (o : Option ℕ) : OptNatLE o o := by
  cases o <;> simp [OptNatLE]

/-- Invariant carried through the per-variant loop, tying the registry entry
to the local counters. -/
def LoopInv (total : ℕ) (st : LoopState) : Prop :=
  st.progress.current = st.current ∧
  st.progress.percentage = ⌊((st.current : ℚ) / (total : ℚ)) * 100⌋ ∧
  (st.progress.successful = none ∨ st.progress.successful = some st.successful)

lemma perc_mono (total a b : ℕ) (h : a ≤ b) :
    ⌊((a : ℚ) / (total : ℚ)) * 100⌋ ≤ ⌊((b : ℚ) / (total : ℚ)) * 100⌋ := by
  apply Int.floor_le_floor
  rcases Nat.eq_zero_or_pos total with h0 | hpos
  · simp [h0]
  · have ht : (0 : ℚ) < total := by exact_mod_cast hpos
    have hab : (a : ℚ) ≤ b := by exact_mod_cast h
    have hdiv : (a : ℚ) / total ≤ (b : ℚ) / total :=
      (div_le_div_iff_of_pos_right ht).mpr hab
    exact mul_le_mul_of_nonneg_right hdiv (by norm_num)

lemma stepVariant_inv (rem : ℕ → ℚ → Option ℚ → CallResult)
    (s : DiscountStrategy) (v : ℚ) (t : Option ℚ) (total : ℕ)
    (u : String × Variant) (st : LoopState) :
    LoopInv total (stepVariant rem s v t total u st) := by
  refine ⟨rfl, ?_, Or.inr rfl⟩
  simp [stepVariant]

lemma stepVariant_le (rem : ℕ → ℚ → Option ℚ → CallResult)
    (s : DiscountStrategy) (v : ℚ) (t : Option ℚ) (total : ℕ)
    (u : String × Variant) (st : LoopState) (h : LoopInv total st) :
    ProgressLE st.progress (stepVariant rem s v t total u st).progress := by
  obtain ⟨h1, h2, h3⟩ := h
  refine ⟨?_, ?_, ?_⟩
  · show st.progress.current ≤ st.current + 1
    omega
  · show st.progress.percentage ≤ ⌊(((st.current + 1 : ℕ) : ℚ) / (total : ℚ)) * 100⌋
    rw [h2]
    exact perc_mono total st.current (st.current + 1) (Nat.le_succ _)
  · rcases h3 with h3 | h3
    · show OptNatLE st.progress.successful _
      rw [h3]
      trivial
    · show OptNatLE st.progress.successful
        (some (st.successful + if update_single_variant_discount rem s v t u.2 then 1 else 0))
      rw [h3]
      show st.successful ≤ st.successful + _
      omega

lemma chain_runUnits (rem : ℕ → ℚ → Option ℚ → CallResult)
    (s : DiscountStrategy) (v : ℚ) (t : Option ℚ) (total : ℕ)
    (us : List (String × Variant)) (st : LoopState) (h : LoopInv total st) :
    List.Chain' ProgressLE (st.progress ::
      (runUnitsTrace rem s v t total us st ++
        [{ (runUnitsFinal rem s v t total us st).progress with
            status := JobStatus.completed }])) := by
  induction us generalizing st with
  | nil =>
      simp only [runUnitsTrace, runUnitsFinal, List.nil_append]
      refine List.chain'_cons.mpr ⟨⟨le_refl _, le_refl _, OptNatLE_refl _⟩, ?_⟩
      exact List.chain'_singleton _
  | cons u us ih =>
      simp only [runUnitsTrace, runUnitsFinal, List.cons_append]
      exact List.chain'_cons.mpr ⟨stepVariant_le rem s v t total u st h,
        ih _ (stepVariant_inv rem s v t total u st)⟩

/-- C9: along the whole sequence of registry states written by one job run —
from the initializing entry through every per-unit update to the terminal
one — the counters `current`, `percentage` and `successfulCount` never
decrease. -/
theorem progress_counters_monotone (remote : ℕ → ℚ → Option ℚ → CallResult)
    (session : String) (strategy : DiscountStrategy) (value : ℚ)
    (target : Option ℚ) (fetch : FetchResult) :
    List.Chain' ProgressLE (progress_trace remote session strategy value target fetch) := by
  show List.Chain' ProgressLE (initProgress session strategy ::
    (initialLoopState session strategy (total_variants (get_filtered_products fetch))).progress ::
    (runUnitsTrace remote strategy value target _ (units (get_filtered_products fetch)) _ ++
      [final_progress remote session strategy value target fetch]))
  refine List.chain'_cons.mpr ⟨⟨le_refl _, le_refl _, ?_⟩, ?_⟩
  · show OptNatLE none none
    trivial
  · exact chain_runUnits remote strategy value target _ _ _
      ⟨rfl, by simp [initialLoopState, initProgress], Or.inl rfl⟩

end ShopifyTool
